import Mathlib

/-!
# Verification of `accountable-refcell` (src/lib.rs)

A shallow embedding of the `accountable_refcell` crate: a `RefCell` that, in
addition to the standard dynamic borrow discipline, keeps a ledger of
outstanding borrows, each tagged with an id and a captured stack snapshot,
so that borrow conflicts can be reported with provenance.

Modelling conventions:
* State is passed explicitly: every operation that mutates the cell takes the
  current `RefCell` state and returns the updated one.
* Rust panics (`panic!`, `expect`) are modelled as `Option.none`; the `try_*`
  operations return `Except` paired with the (possibly untouched) state,
  mirroring the fact that `Err` leaves `&self` unmodified.
* `Backtrace::new()` captures the live call stack, an environment effect; it
  is modelled as an explicit snapshot token (`Nat`) supplied by the caller.
* `usize` arithmetic is `Nat` with explicit reduction modulo `2 ^ 64`
  (`wrapping_add`).
* The inner `std::cell::RefCell`'s borrow flag is modelled by `BorrowFlag`;
  a live `StdRef`/`StdRefMut` guard corresponds to one unit of that flag.
-/

namespace AccountableRefCell

/-- Width of the `usize` id space (64-bit platform). -/
def USIZE : Nat := 2 ^ 64

/-- One outstanding borrow, from `struct BorrowRecord { id, backtrace }`.
The `backtrace` field holds the snapshot token captured when the borrow was
granted. -/
structure BorrowRecord where
  id : Nat
  backtrace : Nat
deriving Repr, DecidableEq

/-- The borrow ledger, from `struct BorrowData { next_id, borrows }`. -/
structure BorrowData where
  next_id : Nat
  borrows : List BorrowRecord
deriving Repr, DecidableEq

/-- From `BorrowData::record`: allocate the next id (`next_id` with wrapping
increment, from `BorrowData::next_id`), push a record carrying the captured
snapshot, and return the id. Total: the source has no failure path here. -/
def BorrowData.record (d : BorrowData) (snapshot : Nat) : Nat × BorrowData :=
  let id := d.next_id
  (id, { next_id := (id + 1) % USIZE,
         borrows := d.borrows ++ [{ id := id, backtrace := snapshot }] })

/-- From `Iterator::position`: index of the first element satisfying `p`. -/
def position (p : BorrowRecord → Bool) : List BorrowRecord → Option Nat
  | [] => none
  | r :: rest => if p r then some 0 else (position p rest).map (· + 1)

/-- From `BorrowData::remove_matching_record`: locate the first record whose id
matches (`iter().position(...)`) and remove it (`Vec::remove`); `none` models
the `expect("missing borrow record")` assertion failure when no record
matches. -/
def BorrowData.remove_matching_record (d : BorrowData) (id : Nat) :
    Option BorrowData :=
  match position (fun record => record.id == id) d.borrows with
  | none => none
  | some idx => some { d with borrows := d.borrows.eraseIdx idx }

/-- The borrow flag of the inner `std::cell::RefCell`. `Reading n` means
`n + 1` live shared guards, so that every constructor value is a reachable
flag state. -/
inductive BorrowFlag where
  | Idle : BorrowFlag
  | Reading (n : Nat) : BorrowFlag
  | Writing : BorrowFlag
deriving Repr, DecidableEq

/-- From `std::cell::RefCell::try_borrow` on the inner cell: succeeds (adding one
reader) unless a writer is live. -/
def stdTryBorrow : BorrowFlag → Option BorrowFlag
  | .Idle => some (.Reading 0)
  | .Reading n => some (.Reading (n + 1))
  | .Writing => none

/-- From `std::cell::RefCell::try_borrow_mut` on the inner cell: succeeds only
from the idle state. -/
def stdTryBorrowMut : BorrowFlag → Option BorrowFlag
  | .Idle => some .Writing
  | _ => none

/-- Dropping one `StdRef`: remove one reader from the flag. `none` only on
states where no shared guard can be live. -/
def dropSharedFlag : BorrowFlag → Option BorrowFlag
  | .Reading 0 => some .Idle
  | .Reading (n + 1) => some (.Reading n)
  | _ => none

/-- Dropping the `StdRefMut`: the writer releases the flag. -/
def dropWriteFlag : BorrowFlag → Option BorrowFlag
  | .Writing => some .Idle
  | _ => none

/-- The tracked cell, from `struct RefCell<T> { borrows, inner }`: one value,
the inner cell's borrow flag, and the borrow ledger. -/
structure RefCell (α : Type) where
  value : α
  flag : BorrowFlag
  borrows : BorrowData
deriving Repr, DecidableEq

/-- From `RefCell::new`: wrap a value with an empty ledger and `next_id = 0`. -/
def RefCell.new (value : α) : RefCell α :=
  { value := value, flag := .Idle, borrows := { next_id := 0, borrows := [] } }

/-- From `RefCell::into_inner`: consume the cell and return the stored value. -/
def RefCell.into_inner (s : RefCell α) : α :=
  s.value

/-- A shared guard, from `struct Ref<'a, T> { inner, data }`: the view the
`StdRef` dereferences to, and the id of the ledger entry owned by its
`RefBorrowData`. -/
structure Ref (β : Type) where
  view : β
  id : Nat
deriving Repr, DecidableEq

/-- An exclusive guard, from `struct RefMut<'a, T> { inner, data }`. -/
structure RefMut (β : Type) where
  view : β
  id : Nat
deriving Repr, DecidableEq

/-- From `BorrowError` (re-exported from `std::cell`): carries no payload. -/
inductive BorrowError where
  | mk : BorrowError
deriving Repr, DecidableEq

/-- From `BorrowMutError` (re-exported from `std::cell`): carries no payload. -/
inductive BorrowMutError where
  | mk : BorrowMutError
deriving Repr, DecidableEq

/-- From `RefCell::borrow`: try the inner shared borrow; on success record a
ledger entry and return the guard; on failure (a writer is live) print
diagnostics and panic (`none`). -/
def RefCell.borrow (s : RefCell α) (snapshot : Nat) :
    Option (Ref α × RefCell α) :=
  match stdTryBorrow s.flag with
  | some flag =>
      let (id, d) := s.borrows.record snapshot
      some ({ view := s.value, id := id }, { s with flag := flag, borrows := d })
  | none => none

/-- From `RefCell::try_borrow`: same admission rule as `borrow`, but the conflict
is returned as `Err(BorrowError)` and `&self` is left untouched. -/
def RefCell.try_borrow (s : RefCell α) (snapshot : Nat) :
    Except BorrowError (Ref α) × RefCell α :=
  match stdTryBorrow s.flag with
  | some flag =>
      let (id, d) := s.borrows.record snapshot
      (.ok { view := s.value, id := id }, { s with flag := flag, borrows := d })
  | none => (.error .mk, s)

/-- From `RefCell::borrow_mut`: try the inner exclusive borrow; on success record
a ledger entry and return the guard; on failure (any borrow is live) print
diagnostics and panic (`none`). -/
def RefCell.borrow_mut (s : RefCell α) (snapshot : Nat) :
    Option (RefMut α × RefCell α) :=
  match stdTryBorrowMut s.flag with
  | some flag =>
      let (id, d) := s.borrows.record snapshot
      some ({ view := s.value, id := id }, { s with flag := flag, borrows := d })
  | none => none

/-- From `RefCell::try_borrow_mut`: same admission rule as `borrow_mut`, but the
conflict is returned as `Err(BorrowMutError)` and `&self` is left
untouched. -/
def RefCell.try_borrow_mut (s : RefCell α) (snapshot : Nat) :
    Except BorrowMutError (RefMut α) × RefCell α :=
  match stdTryBorrowMut s.flag with
  | some flag =>
      let (id, d) := s.borrows.record snapshot
      (.ok { view := s.value, id := id }, { s with flag := flag, borrows := d })
  | none => (.error .mk, s)

/-- Dropping a `Ref`: the `StdRef` release decrements the reader flag and the
`RefBorrowData` drop removes the matching ledger record; either failing is an
internal-consistency panic (`none`). -/
def Ref.drop (g : Ref β) (s : RefCell α) : Option (RefCell α) := do
  let flag ← dropSharedFlag s.flag
  let d ← s.borrows.remove_matching_record g.id
  pure { s with flag := flag, borrows := d }

/-- Dropping a `RefMut`: the `StdRefMut` release resets the flag and the
`RefBorrowData` drop removes the matching ledger record. -/
def RefMut.drop (g : RefMut β) (s : RefCell α) : Option (RefCell α) := do
  let flag ← dropWriteFlag s.flag
  let d ← s.borrows.remove_matching_record g.id
  pure { s with flag := flag, borrows := d }

/-- From `Ref::clone`: record a brand new ledger entry and clone the inner
`StdRef` (one more reader on the flag). The original guard is untouched.
`none` only on flag states where no shared guard can be live. -/
def Ref.clone (orig : Ref β) (s : RefCell α) (snapshot : Nat) :
    Option (Ref β × RefCell α) :=
  match s.flag with
  | .Reading n =>
      let (id, d) := s.borrows.record snapshot
      some ({ view := orig.view, id := id },
            { s with flag := .Reading (n + 1), borrows := d })
  | _ => none

/-- From `Ref::map`: narrow the view; the ledger entry (`orig.data`) transfers to
the new guard unchanged. The transient `StdRef::clone` followed by dropping
the original `StdRef` leaves the reader flag net unchanged, so the cell state
is not an argument. -/
def Ref.map (orig : Ref β) (f : β → γ) : Ref γ :=
  { view := f orig.view, id := orig.id }

/-- From `RefMut::map`: narrow the view; the ledger entry transfers to the new
guard and the inner `StdRefMut` is moved, so the cell state is untouched. -/
def RefMut.map (orig : RefMut β) (f : β → γ) : RefMut γ :=
  { view := f orig.view, id := orig.id }

/-- From `ref_filter_map`: apply `f` to the view; if it produces a sub-view, map
the guard over it (entry transferred, state untouched); if it declines, the
original guard is dropped on the way out, releasing its entry. -/
def ref_filter_map (orig : Ref β) (f : β → Option γ) (s : RefCell α) :
    Option (Option (Ref γ) × RefCell α) :=
  match f orig.view with
  | some new => some (some (Ref.map orig (fun _ => new)), s)
  | none => (orig.drop s).map (fun s1 => (none, s1))

/-- From `ref_mut_filter_map`: the exclusive-guard analogue of `ref_filter_map`. -/
def ref_mut_filter_map (orig : RefMut β) (f : β → Option γ) (s : RefCell α) :
    Option (Option (RefMut γ) × RefCell α) :=
  match f orig.view with
  | some new => some (some (RefMut.map orig (fun _ => new)), s)
  | none => (orig.drop s).map (fun s1 => (none, s1))

/-- From `RefCell::replace`: `mem::replace(&mut *self.borrow_mut(), t)` — take an
exclusive guard (panicking as `borrow_mut` does), swap the value, drop the
guard, return the prior value. -/
def RefCell.replace (s : RefCell α) (t : α) (snapshot : Nat) :
    Option (α × RefCell α) := do
  let (g, s1) ← s.borrow_mut snapshot
  let old := s1.value
  let s2 ← RefMut.drop g { s1 with value := t }
  pure (old, s2)

/-- From `RefCell::take` (for `T: Default`): `self.replace(Default::default())`. -/
def RefCell.take [Inhabited α] (s : RefCell α) (snapshot : Nat) :
    Option (α × RefCell α) :=
  s.replace default snapshot

/-- From `Clone for RefCell`: `RefCell::new(self.borrow().clone())` — a transient
shared borrow of the source (panicking if a writer is live), a fresh cell
around the cloned value, and the transient guard dropped before returning.
Returns the new cell and the updated source state. -/
def RefCell.clone (s : RefCell α) (snapshot : Nat) :
    Option (RefCell α × RefCell α) := do
  let (g, s1) ← s.borrow snapshot
  let s2 ← g.drop s1
  pure (RefCell.new g.view, s2)

/-- From `PartialEq for RefCell`: `*self.borrow() == *other.borrow()` — transient
shared borrows of both sides, value comparison, both guards dropped before
returning. Returns the comparison and both updated states. -/
def RefCell.eq [DecidableEq α] (s1 s2 : RefCell α)
    (snapshot1 snapshot2 : Nat) :
    Option (Bool × RefCell α × RefCell α) := do
  let (g1, s1a) ← s1.borrow snapshot1
  let (g2, s2a) ← s2.borrow snapshot2
  let b := decide (g1.view = g2.view)
  let s2b ← g2.drop s2a
  let s1b ← g1.drop s1a
  pure (b, s1b, s2b)

/-! ## Helper lemmas about the ledger -/

theorem position_eq_none_iff (p : BorrowRecord → Bool) (l : List BorrowRecord) :
    position p l = none ↔ ∀ r ∈ l, p r = false := by
  induction l with
  | nil => simp [position]
  | cons r rest ih =>
    by_cases h : p r <;> simp [position, h, Option.map_eq_none', ih]

theorem position_lt_length (p : BorrowRecord → Bool) (l : List BorrowRecord)
    (i : Nat) (h : position p l = some i) : i < l.length := by
  induction l generalizing i with
  | nil => simp [position] at h
  | cons r rest ih =>
    by_cases hp : p r
    · simp [position, hp] at h
      simp only [List.length_cons]
      omega
    · simp [position, hp, Option.map_eq_some'] at h
      obtain ⟨j, hj, rfl⟩ := h
      have := ih j hj
      simp
      omega

theorem length_eraseIdx_add_one (l : List BorrowRecord) (i : Nat)
    (h : i < l.length) : (l.eraseIdx i).length + 1 = l.length := by
  induction l generalizing i with
  | nil => simp at h
  | cons a rest ih =>
    cases i with
    | zero => simp [List.eraseIdx]
    | succ j =>
      simp only [List.eraseIdx, List.length_cons]
      have := ih j (by simpa using h)
      omega

/-- Record-then-remove bookkeeping: whenever the ledger holds a record with
the requested id, removal succeeds and shrinks the ledger by exactly one
entry, leaving `next_id` alone. -/
theorem remove_matching_record_of_mem (d : BorrowData) (id : Nat)
    (h : ∃ r ∈ d.borrows, r.id = id) :
    ∃ d', d.remove_matching_record id = some d' ∧
      d'.borrows.length + 1 = d.borrows.length ∧ d'.next_id = d.next_id := by
  obtain ⟨r, hmem, hid⟩ := h
  rcases hpos : position (fun record => record.id == id) d.borrows with _ | i
  · rw [position_eq_none_iff] at hpos
    have := hpos r hmem
    simp [hid] at this
  · refine ⟨{ d with borrows := d.borrows.eraseIdx i }, ?_, ?_, rfl⟩
    · simp [BorrowData.remove_matching_record, hpos]
    · exact length_eraseIdx_add_one _ _ (position_lt_length _ _ _ hpos)

theorem position_append_cons (p : BorrowRecord → Bool)
    (pre post : List BorrowRecord) (r : BorrowRecord)
    (hpre : ∀ r' ∈ pre, p r' = false) (hr : p r = true) :
    position p (pre ++ r :: post) = some pre.length := by
  induction pre with
  | nil => simp [position, hr]
  | cons a rest ih =>
    have ha : p a = false := hpre a (by simp)
    have ih2 := ih (fun r' hm => hpre r' (by simp [hm]))
    simp [position, ha, List.append_eq, ih2]

theorem eraseIdx_append_cons (pre post : List BorrowRecord) (r : BorrowRecord) :
    (pre ++ r :: post).eraseIdx pre.length = pre ++ post := by
  induction pre with
  | nil => simp [List.eraseIdx]
  | cons a rest ih => simp [List.eraseIdx, ih]

theorem stdTryBorrow_roundtrip (fl : BorrowFlag) (h : fl ≠ .Writing) :
    ∃ fl2, stdTryBorrow fl = some fl2 ∧ dropSharedFlag fl2 = some fl := by
  cases fl with
  | Idle => exact ⟨.Reading 0, rfl, rfl⟩
  | Reading n => exact ⟨.Reading (n + 1), rfl, rfl⟩
  | Writing => exact absurd rfl h

theorem borrow_eq_of_flag (s : RefCell α) (snapshot : Nat) (fl : BorrowFlag)
    (h : stdTryBorrow s.flag = some fl) :
    s.borrow snapshot = some ({ view := s.value, id := s.borrows.next_id },
      { s with flag := fl, borrows := (s.borrows.record snapshot).2 }) := by
  simp [RefCell.borrow, h, BorrowData.record]

theorem mem_record_self (d : BorrowData) (snapshot : Nat) :
    ∃ r ∈ (d.record snapshot).2.borrows, r.id = d.next_id :=
  ⟨{ id := d.next_id, backtrace := snapshot }, by simp [BorrowData.record], rfl⟩

theorem Ref.drop_shared_eq (g : Ref β) (s : RefCell α) (fl : BorrowFlag)
    (d' : BorrowData) (h1 : dropSharedFlag s.flag = some fl)
    (h2 : s.borrows.remove_matching_record g.id = some d') :
    g.drop s = some { s with flag := fl, borrows := d' } := by
  simp [Ref.drop, h1, h2]

theorem RefMut.drop_write_eq (g : RefMut β) (s : RefCell α) (d' : BorrowData)
    (h1 : s.flag = .Writing)
    (h2 : s.borrows.remove_matching_record g.id = some d') :
    g.drop s = some { s with flag := .Idle, borrows := d' } := by
  simp [RefMut.drop, dropWriteFlag, h1, h2]

/-- Shared success lemma: from the idle state, `replace` returns the prior
value, stores the new one, releases its transient exclusive access, and
restores the ledger occupancy. -/
theorem replace_of_idle (s : RefCell α) (t : α) (snapshot : Nat)
    (h : s.flag = .Idle) :
    ∃ s', s.replace t snapshot = some (s.value, s') ∧ s'.value = t ∧
      s'.flag = .Idle ∧
      s'.borrows.borrows.length = s.borrows.borrows.length := by
  obtain ⟨d', hd', hlen, hnid⟩ := remove_matching_record_of_mem
    (s.borrows.record snapshot).2 s.borrows.next_id
    (mem_record_self s.borrows snapshot)
  have hbm : s.borrow_mut snapshot
      = some ({ view := s.value, id := s.borrows.next_id },
        { s with flag := .Writing,
                 borrows := (s.borrows.record snapshot).2 }) := by
    simp [RefCell.borrow_mut, stdTryBorrowMut, h, BorrowData.record]
  have hdrop := RefMut.drop_write_eq
    ({ view := s.value, id := s.borrows.next_id } : RefMut α)
    { s with value := t, flag := .Writing,
             borrows := (s.borrows.record snapshot).2 } d' rfl hd'
  refine ⟨{ value := t, flag := .Idle, borrows := d' }, ?_, rfl, rfl, ?_⟩
  · simp [RefCell.replace, hbm, hdrop]
  · show d'.borrows.length = s.borrows.borrows.length
    simp [BorrowData.record] at hlen
    omega

/-! ## Claim theorems -/

/-- C6: releasing an id that matches an entry removes exactly that entry
(the first match, others untouched); releasing an id with no matching entry
is the fatal `expect("missing borrow record")` assertion failure (`none`),
not a normal error outcome. -/
theorem remove_matching_record_spec (d : BorrowData) (id : Nat) :
    (∀ pre r post, d.borrows = pre ++ r :: post → r.id = id →
      (∀ r' ∈ pre, r'.id ≠ id) →
      d.remove_matching_record id = some { d with borrows := pre ++ post }) ∧
    ((∀ r ∈ d.borrows, r.id ≠ id) → d.remove_matching_record id = none) := by
  constructor
  · intro pre r post hsplit hr hpre
    have hpos : position (fun record => record.id == id) d.borrows
        = some pre.length := by
      rw [hsplit]
      exact position_append_cons _ _ _ _
        (fun r' hm => by simp [hpre r' hm]) (by simp [hr])
    simp only [BorrowData.remove_matching_record, hpos]
    simp [hsplit, eraseIdx_append_cons]
  · intro hnone
    have hpos : position (fun record => record.id == id) d.borrows = none := by
      rw [position_eq_none_iff]
      intro r hm
      simp [hnone r hm]
    simp [BorrowData.remove_matching_record, hpos]

/-- C6 witness: on the concrete ledger `[{id 0}, {id 1}, {id 2}]`, removing
id `1` removes exactly that entry, and removing id `7` is the fatal path. -/
theorem remove_matching_record_spec_witness :
    BorrowData.remove_matching_record
        ⟨3, [⟨0, 10⟩, ⟨1, 11⟩, ⟨2, 12⟩]⟩ 1
      = some ⟨3, [⟨0, 10⟩, ⟨2, 12⟩]⟩ ∧
    BorrowData.remove_matching_record
        ⟨3, [⟨0, 10⟩, ⟨1, 11⟩, ⟨2, 12⟩]⟩ 7 = none := by
  constructor
  · exact (remove_matching_record_spec ⟨3, [⟨0, 10⟩, ⟨1, 11⟩, ⟨2, 12⟩]⟩ 1).1
      [⟨0, 10⟩] ⟨1, 11⟩ [⟨2, 12⟩] rfl rfl (by decide)
  · exact (remove_matching_record_spec ⟨3, [⟨0, 10⟩, ⟨1, 11⟩, ⟨2, 12⟩]⟩ 7).2
      (by decide)

/-- C7: `record` returns the current `next_id`, appends an entry carrying
that id and the captured snapshot, and advances `next_id` by one modulo the
`usize` width; it is a total function (no failure mode). -/
theorem record_spec (d : BorrowData) (snapshot : Nat) :
    (d.record snapshot).1 = d.next_id ∧
    (d.record snapshot).2.borrows
      = d.borrows ++ [{ id := d.next_id, backtrace := snapshot }] ∧
    (d.record snapshot).2.next_id = (d.next_id + 1) % USIZE :=
  ⟨rfl, rfl, rfl⟩

/-- C1: the borrow admission protocol of the panicking operations. With one
or more shared guards alive (`flag = Reading n`, i.e. `n + 1` readers),
`borrow_mut` panics (`none`); with an exclusive guard alive
(`flag = Writing`), `borrow` panics; with only shared guards alive, `borrow`
succeeds, increments the reader count, and adds one ledger entry; and from
the idle state (all guards released), `borrow_mut` succeeds. -/
theorem borrow_protocol (s : RefCell α) (snapshot : Nat) :
    (∀ n, s.flag = .Reading n → s.borrow_mut snapshot = none) ∧
    (s.flag = .Writing → s.borrow snapshot = none) ∧
    (∀ n, s.flag = .Reading n →
      ∃ g s', s.borrow snapshot = some (g, s') ∧
        s'.flag = .Reading (n + 1) ∧
        s'.borrows.borrows.length = s.borrows.borrows.length + 1) ∧
    (s.flag = .Idle →
      ∃ g s', s.borrow_mut snapshot = some (g, s') ∧ s'.flag = .Writing) := by
  refine ⟨?_, ?_, ?_, ?_⟩
  · intro n h
    simp [RefCell.borrow_mut, stdTryBorrowMut, h]
  · intro h
    simp [RefCell.borrow, stdTryBorrow, h]
  · intro n h
    refine ⟨{ view := s.value, id := s.borrows.next_id },
      { s with flag := .Reading (n + 1),
               borrows := (s.borrows.record snapshot).2 }, ?_, rfl, ?_⟩
    · simp [RefCell.borrow, stdTryBorrow, h, BorrowData.record]
    · simp [BorrowData.record]
  · intro h
    refine ⟨{ view := s.value, id := s.borrows.next_id },
      { s with flag := .Writing,
               borrows := (s.borrows.record snapshot).2 }, ?_, rfl⟩
    simp [RefCell.borrow_mut, stdTryBorrowMut, h, BorrowData.record]

/-- C1 witness: the four conjuncts at concrete states; a cell holding `5`
with one live shared guard, a mutably borrowed cell, and an idle cell. -/
theorem borrow_protocol_witness :
    RefCell.borrow_mut (⟨5, .Reading 0, ⟨1, [⟨0, 3⟩]⟩⟩ : RefCell Nat) 4
        = none ∧
    RefCell.borrow (⟨5, .Writing, ⟨1, [⟨0, 3⟩]⟩⟩ : RefCell Nat) 4 = none ∧
    (∃ g s', RefCell.borrow (⟨5, .Reading 0, ⟨1, [⟨0, 3⟩]⟩⟩ : RefCell Nat) 4
        = some (g, s') ∧ s'.flag = .Reading 1 ∧
        s'.borrows.borrows.length = 2) ∧
    (∃ g s', RefCell.borrow_mut (⟨5, .Idle, ⟨0, []⟩⟩ : RefCell Nat) 4
        = some (g, s') ∧ s'.flag = .Writing) := by
  refine ⟨(borrow_protocol _ 4).1 0 rfl, (borrow_protocol _ 4).2.1 rfl, ?_,
    (borrow_protocol _ 4).2.2.2 rfl⟩
  have h := (borrow_protocol (⟨5, .Reading 0, ⟨1, [⟨0, 3⟩]⟩⟩ : RefCell Nat)
    4).2.2.1 0 rfl
  simpa using h

/-- C2: the `try_*` operations apply the same admission rule as the
panicking operations (`Err` exactly when the panicking form panics, and the
same guard and state on success), but a conflict is returned as a
recoverable error with the cell untouched — in particular `try_borrow`
against an outstanding exclusive guard returns the conflict error and leaves
the `Writing` state (the guard's validity) intact. -/
theorem try_borrow_protocol (s : RefCell α) (snapshot : Nat) :
    ((s.try_borrow snapshot).1 = .error .mk ↔ s.borrow snapshot = none) ∧
    ((s.try_borrow_mut snapshot).1 = .error .mk ↔
      s.borrow_mut snapshot = none) ∧
    (∀ g s', s.borrow snapshot = some (g, s') →
      s.try_borrow snapshot = (.ok g, s')) ∧
    (∀ g s', s.borrow_mut snapshot = some (g, s') →
      s.try_borrow_mut snapshot = (.ok g, s')) ∧
    (s.flag = .Writing →
      s.try_borrow snapshot = (.error .mk, s) ∧ s.borrow snapshot = none) := by
  cases h : s.flag <;>
    simp [RefCell.try_borrow, RefCell.try_borrow_mut, RefCell.borrow,
      RefCell.borrow_mut, stdTryBorrow, stdTryBorrowMut, h]

/-- C2 witness: on a cell holding `5` with an outstanding exclusive guard,
`try_borrow` returns the conflict error with the state untouched while
`borrow` panics; and on an idle cell the success cases agree. -/
theorem try_borrow_protocol_witness :
    RefCell.try_borrow (⟨5, .Writing, ⟨1, [⟨0, 3⟩]⟩⟩ : RefCell Nat) 4
        = (.error .mk, ⟨5, .Writing, ⟨1, [⟨0, 3⟩]⟩⟩) ∧
    RefCell.borrow (⟨5, .Writing, ⟨1, [⟨0, 3⟩]⟩⟩ : RefCell Nat) 4 = none ∧
    RefCell.try_borrow_mut (⟨5, .Idle, ⟨0, []⟩⟩ : RefCell Nat) 4
        = (.ok ⟨5, 0⟩, ⟨5, .Writing, ⟨1, [⟨0, 4⟩]⟩⟩) := by
  have h := (try_borrow_protocol
    (⟨5, .Writing, ⟨1, [⟨0, 3⟩]⟩⟩ : RefCell Nat) 4).2.2.2.2 rfl
  refine ⟨h.1, h.2, ?_⟩
  exact (try_borrow_protocol (⟨5, .Idle, ⟨0, []⟩⟩ : RefCell Nat) 4).2.2.2.1
    ⟨5, 0⟩ ⟨5, .Writing, ⟨1, [⟨0, 4⟩]⟩⟩ rfl

/-- C9: error atomicity of the `try_*` operations — on a conflict the
returned state is exactly the input state: no ledger entry recorded,
`next_id` not advanced, value untouched. -/
theorem try_error_atomicity (s : RefCell α) (snapshot : Nat) :
    (s.flag = .Writing → s.try_borrow snapshot = (.error .mk, s)) ∧
    (s.flag ≠ .Idle → s.try_borrow_mut snapshot = (.error .mk, s)) := by
  cases h : s.flag <;>
    simp [RefCell.try_borrow, RefCell.try_borrow_mut, stdTryBorrow,
      stdTryBorrowMut, h]

/-- C9 witness: conflicting `try_borrow` and `try_borrow_mut` on concrete
busy cells return the input state unchanged. -/
theorem try_error_atomicity_witness :
    RefCell.try_borrow (⟨5, .Writing, ⟨1, [⟨0, 3⟩]⟩⟩ : RefCell Nat) 9
        = (.error .mk, ⟨5, .Writing, ⟨1, [⟨0, 3⟩]⟩⟩) ∧
    RefCell.try_borrow_mut (⟨5, .Reading 0, ⟨1, [⟨0, 3⟩]⟩⟩ : RefCell Nat) 9
        = (.error .mk, ⟨5, .Reading 0, ⟨1, [⟨0, 3⟩]⟩⟩) := by
  exact ⟨(try_error_atomicity (⟨5, .Writing, ⟨1, [⟨0, 3⟩]⟩⟩ : RefCell Nat)
      9).1 rfl,
    (try_error_atomicity (⟨5, .Reading 0, ⟨1, [⟨0, 3⟩]⟩⟩ : RefCell Nat) 9).2
      (by simp)⟩

/-- C4: `replace` returns the prior value, stores the new one, leaves no
outstanding access behind (idle flag, ledger occupancy restored), a
subsequent shared access observes the new value, and it fails (panics,
`none`) exactly when `borrow_mut` would. -/
theorem replace_spec (s : RefCell α) (t : α) (snapshot : Nat) :
    (s.flag = .Idle →
      ∃ s', s.replace t snapshot = some (s.value, s') ∧ s'.value = t ∧
        s'.flag = .Idle ∧
        s'.borrows.borrows.length = s.borrows.borrows.length ∧
        ∃ g s'', s'.borrow snapshot = some (g, s'') ∧ g.view = t) ∧
    ((s.replace t snapshot).isSome ↔ (s.borrow_mut snapshot).isSome) := by
  constructor
  · intro h
    obtain ⟨s', hs', hv, hf, hl⟩ := replace_of_idle s t snapshot h
    refine ⟨s', hs', hv, hf, hl, ?_⟩
    have hb := borrow_eq_of_flag s' snapshot (.Reading 0) (by rw [hf]; rfl)
    exact ⟨_, _, hb, hv⟩
  · cases h : s.flag with
    | Idle =>
      obtain ⟨s', hs', _⟩ := replace_of_idle s t snapshot h
      simp [hs', RefCell.borrow_mut, stdTryBorrowMut, h, BorrowData.record]
    | Reading n =>
      simp [RefCell.replace, RefCell.borrow_mut, stdTryBorrowMut, h]
    | Writing =>
      simp [RefCell.replace, RefCell.borrow_mut, stdTryBorrowMut, h]

/-- C4 witness: `replace(12)` on an idle cell holding `5` returns `5`,
stores `12`, leaves the ledger empty, and a subsequent shared access
observes `12`. -/
theorem replace_spec_witness :
    ∃ s', RefCell.replace (⟨5, .Idle, ⟨0, []⟩⟩ : RefCell Nat) 12 7
        = some (5, s') ∧ s'.value = 12 ∧ s'.flag = .Idle ∧
      s'.borrows.borrows.length = 0 ∧
      ∃ g s'', s'.borrow 7 = some (g, s'') ∧ g.view = 12 := by
  have h := (replace_spec (⟨5, .Idle, ⟨0, []⟩⟩ : RefCell Nat) 12 7).1 rfl
  simpa using h

/-- C5: `take` is exactly `replace(default())` — the same result on every
state, hence the same value swap and the same failure behavior — and from
the idle state it returns the prior value leaving the default stored. -/
theorem take_spec [Inhabited α] (s : RefCell α) (snapshot : Nat) :
    s.take snapshot = s.replace default snapshot ∧
    (s.flag = .Idle → ∃ s', s.take snapshot = some (s.value, s') ∧
      s'.value = default) := by
  refine ⟨rfl, fun h => ?_⟩
  obtain ⟨s', hs', hv, _⟩ := replace_of_idle s default snapshot h
  exact ⟨s', hs', hv⟩

/-- C5 witness: on a cell holding `5`, `take` agrees with `replace 0` and
returns `5` leaving the default value `0` stored. -/
theorem take_spec_witness :
    RefCell.take (⟨5, .Idle, ⟨0, []⟩⟩ : RefCell Nat) 7
        = RefCell.replace (⟨5, .Idle, ⟨0, []⟩⟩ : RefCell Nat) 0 7 ∧
    ∃ s', RefCell.take (⟨5, .Idle, ⟨0, []⟩⟩ : RefCell Nat) 7 = some (5, s') ∧
      s'.value = 0 := by
  have h := take_spec (⟨5, .Idle, ⟨0, []⟩⟩ : RefCell Nat) 7
  exact ⟨h.1, h.2 rfl⟩

/-- C3: ledger-entry bookkeeping of the guard operations. `Ref::clone`
appends one brand-new entry (under the freshly allocated id) and leaves the
original entries — including the cloned guard's own — in place; `Ref::map`
and `RefMut::map` transfer the original guard's entry (same id, cell state
untouched) to the guard they return, the original being consumed; a
successful `ref_filter_map`/`ref_mut_filter_map` likewise transfers the
entry with the state untouched; and a declined one drops the original
guard, releasing exactly its entry (count down by one, zero guards left
from it). -/
theorem guard_entry_protocol (s : RefCell α) (snapshot : Nat) :
    (∀ (β : Type) (orig : Ref β) (n : Nat), s.flag = .Reading n →
      ∃ g s', Ref.clone orig s snapshot = some (g, s') ∧
        g.id = s.borrows.next_id ∧
        s'.borrows.borrows = s.borrows.borrows
          ++ [{ id := s.borrows.next_id, backtrace := snapshot }] ∧
        s'.borrows.borrows.length = s.borrows.borrows.length + 1) ∧
    (∀ (β γ : Type) (orig : Ref β) (f : β → γ),
      (Ref.map orig f).id = orig.id) ∧
    (∀ (β γ : Type) (m : RefMut β) (f : β → γ),
      (RefMut.map m f).id = m.id) ∧
    (∀ (β γ : Type) (orig : Ref β) (f : β → Option γ) (new : γ),
      f orig.view = some new →
      ref_filter_map orig f s
        = some (some { view := new, id := orig.id }, s)) ∧
    (∀ (β γ : Type) (orig : Ref β) (f : β → Option γ) (n : Nat),
      f orig.view = none → s.flag = .Reading n →
      (∃ r ∈ s.borrows.borrows, r.id = orig.id) →
      ∃ s', ref_filter_map orig f s = some (none, s') ∧
        s'.borrows.borrows.length + 1 = s.borrows.borrows.length) ∧
    (∀ (β γ : Type) (m : RefMut β) (f : β → Option γ) (new : γ),
      f m.view = some new →
      ref_mut_filter_map m f s
        = some (some { view := new, id := m.id }, s)) ∧
    (∀ (β γ : Type) (m : RefMut β) (f : β → Option γ),
      f m.view = none → s.flag = .Writing →
      (∃ r ∈ s.borrows.borrows, r.id = m.id) →
      ∃ s', ref_mut_filter_map m f s = some (none, s') ∧
        s'.borrows.borrows.length + 1 = s.borrows.borrows.length) := by
  refine ⟨?_, ?_, ?_, ?_, ?_, ?_, ?_⟩
  · intro β orig n h
    refine ⟨{ view := orig.view, id := s.borrows.next_id },
      { s with flag := .Reading (n + 1),
               borrows := (s.borrows.record snapshot).2 },
      ?_, rfl, ?_, ?_⟩
    · simp [Ref.clone, h, BorrowData.record]
    · simp [BorrowData.record]
    · simp [BorrowData.record]
  · intro β γ orig f
    rfl
  · intro β γ m f
    rfl
  · intro β γ orig f new hf
    simp [ref_filter_map, hf, Ref.map]
  · intro β γ orig f n hf hflag hmem
    obtain ⟨d', hd', hlen, _⟩ :=
      remove_matching_record_of_mem s.borrows orig.id hmem
    obtain ⟨fl, hfl⟩ : ∃ fl, dropSharedFlag s.flag = some fl := by
      rw [hflag]
      cases n with
      | zero => exact ⟨.Idle, rfl⟩
      | succ m => exact ⟨.Reading m, rfl⟩
    refine ⟨{ s with flag := fl, borrows := d' }, ?_, hlen⟩
    simp [ref_filter_map, hf, Ref.drop_shared_eq orig s fl d' hfl hd']
  · intro β γ m f new hf
    simp [ref_mut_filter_map, hf, RefMut.map]
  · intro β γ m f hf hflag hmem
    obtain ⟨d', hd', hlen, _⟩ :=
      remove_matching_record_of_mem s.borrows m.id hmem
    refine ⟨{ s with flag := .Idle, borrows := d' }, ?_, hlen⟩
    simp [ref_mut_filter_map, hf, RefMut.drop_write_eq m s d' hflag hd']

/-- C3 witness: on a cell holding `5` with one live shared guard (ledger
`[{id 0}]`), cloning that guard appends entry id `1`; mapping preserves the
id; a successful filter-map transfers the entry with the state untouched;
and declined filter-maps (shared on that cell, exclusive on a mutably
borrowed cell) shrink the ledger from one entry to zero. -/
theorem guard_entry_protocol_witness :
    (∃ g s', Ref.clone ({ view := 5, id := 0 } : Ref Nat)
        (⟨5, .Reading 0, ⟨1, [⟨0, 3⟩]⟩⟩ : RefCell Nat) 4 = some (g, s') ∧
      g.id = 1 ∧ s'.borrows.borrows = [⟨0, 3⟩, ⟨1, 4⟩] ∧
      s'.borrows.borrows.length = 2) ∧
    (Ref.map ({ view := 5, id := 0 } : Ref Nat) (fun v => v + 1)).id = 0 ∧
    (RefMut.map ({ view := 5, id := 0 } : RefMut Nat) (fun v => v + 1)).id
      = 0 ∧
    ref_filter_map ({ view := 5, id := 0 } : Ref Nat) (fun v => some (v + 1))
        (⟨5, .Reading 0, ⟨1, [⟨0, 3⟩]⟩⟩ : RefCell Nat)
      = some (some { view := 6, id := 0 }, ⟨5, .Reading 0, ⟨1, [⟨0, 3⟩]⟩⟩) ∧
    (∃ s', ref_filter_map ({ view := 5, id := 0 } : Ref Nat)
        (fun _ => (none : Option Nat))
        (⟨5, .Reading 0, ⟨1, [⟨0, 3⟩]⟩⟩ : RefCell Nat) = some (none, s') ∧
      s'.borrows.borrows.length + 1 = 1) ∧
    (∃ s', ref_mut_filter_map ({ view := 5, id := 0 } : RefMut Nat)
        (fun _ => (none : Option Nat))
        (⟨5, .Writing, ⟨1, [⟨0, 3⟩]⟩⟩ : RefCell Nat) = some (none, s') ∧
      s'.borrows.borrows.length + 1 = 1) := by
  have h := guard_entry_protocol
    (⟨5, .Reading 0, ⟨1, [⟨0, 3⟩]⟩⟩ : RefCell Nat) 4
  have hw := guard_entry_protocol
    (⟨5, .Writing, ⟨1, [⟨0, 3⟩]⟩⟩ : RefCell Nat) 4
  refine ⟨?_, h.2.1 Nat Nat ⟨5, 0⟩ (fun v => v + 1),
    h.2.2.1 Nat Nat ⟨5, 0⟩ (fun v => v + 1), ?_, ?_, ?_⟩
  · simpa using h.1 Nat ⟨5, 0⟩ 0 rfl
  · exact h.2.2.2.1 Nat Nat ⟨5, 0⟩ (fun v => some (v + 1)) 6 rfl
  · exact h.2.2.2.2.1 Nat Nat ⟨5, 0⟩ (fun _ => none) 0 rfl rfl
      ⟨⟨0, 3⟩, by simp, rfl⟩
  · exact hw.2.2.2.2.2.2 Nat Nat ⟨5, 0⟩ (fun _ => none) rfl rfl
      ⟨⟨0, 3⟩, by simp, rfl⟩

/-- C8: cell-to-cell equality compares the two contained values through a
transient shared access on each side: it panics (`none`) exactly when either
side has an outstanding exclusive access, and otherwise returns the value
comparison with both transient accesses released before returning (values,
flags, and ledger occupancy of both sides restored). -/
theorem eq_spec [DecidableEq α] (s1 s2 : RefCell α)
    (snapshot1 snapshot2 : Nat) :
    (s1.flag = .Writing ∨ s2.flag = .Writing →
      RefCell.eq s1 s2 snapshot1 snapshot2 = none) ∧
    (s1.flag ≠ .Writing → s2.flag ≠ .Writing →
      ∃ r1 r2, RefCell.eq s1 s2 snapshot1 snapshot2
          = some (decide (s1.value = s2.value), r1, r2) ∧
        r1.value = s1.value ∧ r1.flag = s1.flag ∧
        r1.borrows.borrows.length = s1.borrows.borrows.length ∧
        r2.value = s2.value ∧ r2.flag = s2.flag ∧
        r2.borrows.borrows.length = s2.borrows.borrows.length) := by
  constructor
  · intro h
    rcases h with h1 | h2
    · simp [RefCell.eq, RefCell.borrow, stdTryBorrow, h1]
    · by_cases h1 : s1.flag = .Writing
      · simp [RefCell.eq, RefCell.borrow, stdTryBorrow, h1]
      · obtain ⟨fl1, hstep, _⟩ := stdTryBorrow_roundtrip s1.flag h1
        have hb1 := borrow_eq_of_flag s1 snapshot1 fl1 hstep
        have hb2 : s2.borrow snapshot2 = none := by
          simp [RefCell.borrow, stdTryBorrow, h2]
        simp [RefCell.eq, hb1, hb2]
  · intro h1 h2
    obtain ⟨fl1, hs1, hd1⟩ := stdTryBorrow_roundtrip s1.flag h1
    obtain ⟨fl2, hs2, hd2⟩ := stdTryBorrow_roundtrip s2.flag h2
    have hb1 := borrow_eq_of_flag s1 snapshot1 fl1 hs1
    have hb2 := borrow_eq_of_flag s2 snapshot2 fl2 hs2
    obtain ⟨e1, he1, hlen1, _⟩ := remove_matching_record_of_mem
      (s1.borrows.record snapshot1).2 s1.borrows.next_id
      (mem_record_self s1.borrows snapshot1)
    obtain ⟨e2, he2, hlen2, _⟩ := remove_matching_record_of_mem
      (s2.borrows.record snapshot2).2 s2.borrows.next_id
      (mem_record_self s2.borrows snapshot2)
    have hdrop2 := Ref.drop_shared_eq
      ({ view := s2.value, id := s2.borrows.next_id } : Ref α)
      { s2 with flag := fl2, borrows := (s2.borrows.record snapshot2).2 }
      s2.flag e2 hd2 he2
    have hdrop1 := Ref.drop_shared_eq
      ({ view := s1.value, id := s1.borrows.next_id } : Ref α)
      { s1 with flag := fl1, borrows := (s1.borrows.record snapshot1).2 }
      s1.flag e1 hd1 he1
    refine ⟨{ s1 with borrows := e1 }, { s2 with borrows := e2 },
      ?_, rfl, rfl, ?_, rfl, rfl, ?_⟩
    · simp [RefCell.eq, hb1, hb2, hdrop2, hdrop1]
    · show e1.borrows.length = s1.borrows.borrows.length
      simp [BorrowData.record] at hlen1
      omega
    · show e2.borrows.length = s2.borrows.borrows.length
      simp [BorrowData.record] at hlen2
      omega

/-- C8 witness: two idle cells holding `5` compare equal with both states
restored; against a mutably borrowed right-hand cell, equality is the fatal
path. -/
theorem eq_spec_witness :
    (∃ r1 r2, RefCell.eq (⟨5, .Idle, ⟨0, []⟩⟩ : RefCell Nat)
        (⟨5, .Idle, ⟨3, []⟩⟩ : RefCell Nat) 1 2 = some (true, r1, r2) ∧
      r1.value = 5 ∧ r1.flag = .Idle ∧ r1.borrows.borrows.length = 0 ∧
      r2.value = 5 ∧ r2.flag = .Idle ∧ r2.borrows.borrows.length = 0) ∧
    RefCell.eq (⟨5, .Idle, ⟨0, []⟩⟩ : RefCell Nat)
      (⟨5, .Writing, ⟨1, [⟨0, 3⟩]⟩⟩ : RefCell Nat) 1 2 = none := by
  constructor
  · have h := (eq_spec (⟨5, .Idle, ⟨0, []⟩⟩ : RefCell Nat)
      (⟨5, .Idle, ⟨3, []⟩⟩ : RefCell Nat) 1 2).2 (by simp) (by simp)
    simpa using h
  · exact (eq_spec (⟨5, .Idle, ⟨0, []⟩⟩ : RefCell Nat)
      (⟨5, .Writing, ⟨1, [⟨0, 3⟩]⟩⟩ : RefCell Nat) 1 2).1 (Or.inr rfl)

/-- C10: `Clone for RefCell` takes a transient shared borrow of the source
(panicking, `none`, when an exclusive guard is outstanding) and returns a
fresh independent cell holding the source value with an empty ledger and
`next_id = 0`, while the source's value, flag, and ledger occupancy are
restored before returning. -/
theorem clone_cell_spec (s : RefCell α) (snapshot : Nat) :
    (s.flag = .Writing → RefCell.clone s snapshot = none) ∧
    (s.flag ≠ .Writing →
      ∃ c s', RefCell.clone s snapshot = some (c, s') ∧
        c = RefCell.new s.value ∧
        s'.value = s.value ∧ s'.flag = s.flag ∧
        s'.borrows.borrows.length = s.borrows.borrows.length) := by
  constructor
  · intro h
    simp [RefCell.clone, RefCell.borrow, stdTryBorrow, h]
  · intro h
    obtain ⟨fl2, hstep, hback⟩ := stdTryBorrow_roundtrip s.flag h
    have hb := borrow_eq_of_flag s snapshot fl2 hstep
    obtain ⟨d', hd', hlen, _⟩ := remove_matching_record_of_mem
      (s.borrows.record snapshot).2 s.borrows.next_id
      (mem_record_self s.borrows snapshot)
    have hdrop := Ref.drop_shared_eq
      ({ view := s.value, id := s.borrows.next_id } : Ref α)
      { s with flag := fl2, borrows := (s.borrows.record snapshot).2 }
      s.flag d' hback hd'
    refine ⟨RefCell.new s.value, { s with borrows := d' },
      ?_, rfl, rfl, rfl, ?_⟩
    · simp [RefCell.clone, hb, hdrop]
    · show d'.borrows.length = s.borrows.borrows.length
      simp [BorrowData.record] at hlen
      omega

/-- C10 witness: cloning a cell holding `5` with one live shared guard
yields the fresh cell `RefCell.new 5` (empty ledger, `next_id = 0`) and
restores the source; cloning a mutably borrowed cell is the fatal path. -/
theorem clone_cell_spec_witness :
    (∃ c s', RefCell.clone (⟨5, .Reading 0, ⟨1, [⟨0, 3⟩]⟩⟩ : RefCell Nat) 4
        = some (c, s') ∧ c = RefCell.new 5 ∧ s'.value = 5 ∧
      s'.flag = .Reading 0 ∧ s'.borrows.borrows.length = 1) ∧
    RefCell.clone (⟨5, .Writing, ⟨1, [⟨0, 3⟩]⟩⟩ : RefCell Nat) 4 = none := by
  constructor
  · have h := (clone_cell_spec
      (⟨5, .Reading 0, ⟨1, [⟨0, 3⟩]⟩⟩ : RefCell Nat) 4).2 (by simp)
    simpa using h
  · exact (clone_cell_spec
      (⟨5, .Writing, ⟨1, [⟨0, 3⟩]⟩⟩ : RefCell Nat) 4).1 rfl

end AccountableRefCell
